import Mathlib

/-!
Verification development for the camtconv transaction converter.

The source program (src/camtconv.py) extracts CAMT statement entries,
classifies each transaction by regex rules, and writes a CSV table.
Below is a shallow embedding of its data model and operations:
the regex patterns of account_patterns are embedded as word-boundary
alternative matchers, the Transaction builder and classifier as pure
functions, the generator pipeline as an explicit partial-stream model
(transactions yielded so far plus an optional terminal error), and the
CSV writer as a row-list producer.
-/

/-- A word character in the sense of the regex metacharacter backslash-b
used by the source patterns. The embedding is the ASCII word-character
class (letters, digits, underscore), which agrees with Python for the
ASCII subjects exercised here; all pattern alternatives are ASCII. -/
def isWordChar (c : Char) : Bool := c.isAlphanum || c = '_'

/-- Case folding used when a pattern carries the re.I flag. -/
def foldCase (ci : Bool) (c : Char) : Char := if ci then c.toLower else c

/-- Embedding of one compiled pattern of account_patterns: a list of
literal alternatives, a case-insensitivity flag, and flags saying
whether a word boundary is required before the first character and
after the last character of a matched alternative. Every alternative
in the source starts and ends with a word character, so a boundary
requirement amounts to: the neighbouring subject character, when it
exists, is not a word character. -/
structure Pat where
  alts : List String
  ci : Bool
  lb : Bool
  rb : Bool
deriving DecidableEq

/-- If the word w matches at the head of s (under optional case folding),
return the rest of s after the match. -/
def restAfter (ci : Bool) : List Char → List Char → Option (List Char)
  | [], s => some s
  | _ :: _, [] => none
  | a :: w, b :: s => if foldCase ci a = foldCase ci b then restAfter ci w s else none

/-- Trailing word-boundary check against the rest of the subject. -/
def rbOk (rb : Bool) (s : List Char) : Bool :=
  !rb || (match s with
    | [] => true
    | c :: _ => !isWordChar c)

/-- Leading word-boundary check against the character preceding the
current position (none at the start of the subject). -/
def lbOk (lb : Bool) (prev : Option Char) : Bool :=
  !lb || (match prev with
    | none => true
    | some c => !isWordChar c)

/-- Does some alternative of p match at the head of s with the required
trailing boundary? -/
def altHitAt (p : Pat) (s : List Char) (w : String) : Bool :=
  match restAfter p.ci w.data s with
  | some r => rbOk p.rb r
  | none => false

/-- Scan of re.search: try every position of the subject, keeping the
previous character for the leading boundary check. -/
def searchAux (p : Pat) (prev : Option Char) (s : List Char) : Bool :=
  (lbOk p.lb prev && p.alts.any (altHitAt p s)) ||
  (match s with
   | [] => false
   | c :: rest => searchAux p (some c) rest)

/-- Embedding of pattern.search(subject) used truthily by the source. -/
def patSearch (p : Pat) (s : String) : Bool := searchAux p none s.data

/-- First entry of account_patterns: whole-word, case-insensitive
alternation over the retreat synonyms. -/
def pat1 : Pat := ⟨["PWE", "Probenwochenende", "Proben-WE", "Ochsenhausen", "vegetarisch"], true, true, true⟩

/-- Second entry of account_patterns: the case-sensitive acronym rule.
The source regex requires only a trailing word boundary. -/
def pat2 : Pat := ⟨["PWE"], false, false, true⟩

/-- Third entry of account_patterns: whole-word, case-insensitive
alternation over the trip-fee synonyms. -/
def pat3 : Pat := ⟨["Chorreise", "Reisebeitrag", "Chorreisebeitrag"], true, true, true⟩

/-- The ordered rule list account_patterns of the source. -/
def account_patterns : List (Pat × String) :=
  [(pat1, "Probenwochenende"), (pat2, "Probenwochenende"), (pat3, "Chorreise")]

/-- The literal default label returned by Transaction.guessAccount when no
rule matches. The source file contains the double-encoded byte sequence
rendering as U+00C3 U+00A4 in place of the umlaut. -/
def defaultAccount : String := "TagesgeschÃ¤ft"

/-- The classifier loop: return the label of the first rule whose pattern
search hits the subject, or the default label. -/
def guessFrom : List (Pat × String) → String → String
  | [], _ => defaultAccount
  | (p, a) :: rest, s => if patSearch p s then a else guessFrom rest s

/-- Embedding of Transaction.guessAccount of the source. -/
def guess_account (subject : String) : String := guessFrom account_patterns subject

/-- Calendar date of a statement entry (no time component). -/
structure Date where
  year : Nat
  month : Nat
  day : Nat
deriving DecidableEq

/-- A decimal amount as carried by the statement entries: sign, absolute
mantissa, and number of fractional digits (value = mantissa over ten to
the scale). This is the exact-precision decimal of the source, with no
floating point involved. -/
structure Decimal where
  neg : Bool
  mant : Nat
  scale : Nat
deriving DecidableEq

/-- The normalized Transaction record of the source. -/
structure Transaction where
  date : Date
  subject : String
  amount : Decimal
  account : String
deriving DecidableEq

/-- Embedding of the Transaction constructor: the account field is set
once, at construction, from the subject via the classifier. -/
def mkTransaction (date : Date) (subject : String) (amount : Decimal) : Transaction :=
  ⟨date, subject, amount, guess_account subject⟩

/-- One decoded statement entry as exposed by the external CAMT parser:
counterparty name (empty string when absent), ordered purpose lines,
booking date, amount value and currency code. -/
structure CamtEntry where
  name : String
  purpose : List String
  date : Date
  amountValue : Decimal
  currency : String
deriving DecidableEq

/-- The error taxonomy of the pipeline: the currency assertion of the
builder, and the unsupported-input rejection of from_any_files carrying
its message text. -/
inductive Err where
  | currencyMismatch
  | unsupportedInput (msg : String)
deriving DecidableEq

/-- Embedding of Transaction.from_camt_transaction: assemble the subject
from the name (when non-empty) and the first purpose line (when the
purpose list is non-empty), joined by a newline; check the currency is
exactly EUR, failing otherwise; build the Transaction. -/
def from_camt_transaction (camt : CamtEntry) : Except Err Transaction :=
  let parts := if camt.name = "" then [] else [camt.name]
  let parts := parts ++ camt.purpose.take 1
  let subject := String.intercalate "\n" parts
  if camt.currency = "EUR" then
    Except.ok (mkTransaction camt.date subject camt.amountValue)
  else
    Except.error Err.currencyMismatch

/-- Zero-pad a day or month number to two digits, as strftime does. -/
def pad2 (n : Nat) : String := if n < 10 then "0" ++ toString n else toString n

/-- Embedding of date.strftime with the day-dot-month-dot-year format
used by to_csv. -/
def formatDate (d : Date) : String :=
  pad2 d.day ++ "." ++ pad2 d.month ++ "." ++ toString d.year

/-- Insert the de_DE thousands separator into a reversed digit list:
after every third digit, when more digits follow, a dot is inserted.
The counter holds the digits still allowed before the next separator. -/
def groupRevAux : List Char → Nat → List Char
  | [], _ => []
  | c :: rest, 0 => '.' :: c :: groupRevAux rest 2
  | c :: rest, k + 1 => c :: groupRevAux rest k

/-- Group an integer-part digit list in threes from the right with the
de_DE thousands separator. -/
def groupThousands (l : List Char) : List Char := (groupRevAux l.reverse 3).reverse

/-- Embedding of the amount rendering of to_csv: a format expression of
kind n on the decimal amount under the module-level LC_NUMERIC setting
de_DE.utf8. For the finite positional decimals produced by statements
this renders sign, integer digits grouped in threes by dots, and, when
fractional digits exist, a decimal comma followed by them. -/
def formatAmount (d : Decimal) : String :=
  let ds := (toString d.mant).data
  let padded := List.replicate (d.scale + 1 - ds.length) '0' ++ ds
  let ip := padded.take (padded.length - d.scale)
  let fp := padded.drop (padded.length - d.scale)
  String.mk ((if d.neg then ['-'] else []) ++ groupThousands ip
    ++ (if d.scale = 0 then [] else ',' :: fp))

/-- The fixed header row written by to_csv. -/
def fieldnames : List String :=
  ["Datum", "Betreff", "Betrag", "Buchungsnummer", "Semester", "Kategorie", "Unterkonto"]

/-- One data row of to_csv: date, subject, amount, three empty reserved
fields, and the classification label in the last field. -/
def csvRow (t : Transaction) : List String :=
  [formatDate t.date, t.subject, formatAmount t.amount, "", "", "", t.account]

/-- Embedding of to_csv on a fully materialized transaction list: the
header row followed by one row per transaction. Field quoting of the
csv writer (unix dialect, everything quoted) is below the level of this
row model; subjects appear verbatim in their field. -/
def to_csv (ts : List Transaction) : List (List String) :=
  fieldnames :: ts.map csvRow

/-- A member of the extracted zip container: its file name and the
statement entries its document decodes to (decoding itself is the
external CAMT parser). -/
abbrev ZipMember := String × List CamtEntry

/-- Insert a member into a name-sorted member list, keeping order. -/
def insertMember (m : ZipMember) : List ZipMember → List ZipMember
  | [] => [m]
  | n :: rest => if n.1 < m.1 then n :: insertMember m rest else m :: n :: rest

/-- Sorting of the extracted file names done by from_camt_zipfile. -/
def sortMembers : List ZipMember → List ZipMember
  | [] => []
  | m :: rest => insertMember m (sortMembers rest)

/-- The per-document generator loop of from_camt_doc, as a partial
stream: the transactions yielded before the first builder failure, and
that failure when one occurs. -/
def buildStream : List CamtEntry → List Transaction × Option Err
  | [] => ([], none)
  | e :: rest =>
    match from_camt_transaction e with
    | Except.error err => ([], some err)
    | Except.ok t =>
      let r := buildStream rest
      (t :: r.1, r.2)

/-- The member loop of from_camt_zipfile over an already-sorted member
list, tracking the extracted files still on disk. All members start
extracted; a member file is unlinked right after its document is fully
consumed, but an error propagates out of the loop before the unlink, so
the failing member and all later members stay on disk. Returns the
yielded transactions, the leftover extracted files, and the error. -/
def zipRunAux : List ZipMember → List Transaction × List String × Option Err
  | [] => ([], [], none)
  | (name, es) :: rest =>
    let s := buildStream es
    match s.2 with
    | some e => (s.1, name :: rest.map Prod.fst, some e)
    | none =>
      let r := zipRunAux rest
      (s.1 ++ r.1, r.2.1, r.2.2)

/-- Embedding of from_camt_zipfile: extract all members, process them in
sorted file-name order. -/
def zipfileRun (ms : List ZipMember) : List Transaction × List String × Option Err :=
  zipRunAux (sortMembers ms)

/-- Embedding of str.endswith: the character sequence of suf is a
suffix of the character sequence of s. -/
def endsWithChars (s suf : String) : Bool := suf.data.isSuffixOf s.data

/-- Embedding of is_zipfile of the source. -/
def is_zipfile (arg : String) : Bool := endsWithChars arg ".zip" || endsWithChars arg ".ZIP"

/-- Embedding of from_any_files as a partial stream over the input path
list; fs maps a container path to its member list (the file system and
archive reader are external). A path that is not a zip name stops the
stream at once with the unsupported-input error naming it. -/
def from_any_files (fs : String → List ZipMember) : List String → List Transaction × Option Err
  | [] => ([], none)
  | a :: rest =>
    if is_zipfile a then
      let s := zipfileRun (fs a)
      match s.2.2 with
      | some e => (s.1, some e)
      | none =>
        let r := from_any_files fs rest
        (s.1 ++ r.1, r.2)
    else
      ([], some (Err.unsupportedInput ("Don\x27t know how to handle " ++ a)))

/-- The writer to_csv consuming a lazily produced, possibly failing
stream: the header row goes out first, then one row per transaction the
stream yields before it fails; a stream error propagates after those
rows are already written. -/
def to_csv_run (s : List Transaction × Option Err) : List (List String) × Option Err :=
  (to_csv s.1, s.2)

/-- Sample entry with a counterparty name, two purpose lines and EUR. -/
def entryEUR : CamtEntry :=
  ⟨"Acme", ["first", "second"], ⟨2024, 1, 2⟩, ⟨false, 100, 2⟩, "EUR"⟩

/-- Sample entry identical to entryEUR but carrying USD. -/
def entryUSD : CamtEntry :=
  ⟨"Acme", ["first", "second"], ⟨2024, 1, 2⟩, ⟨false, 100, 2⟩, "USD"⟩

/-- Sample entry with no name and one purpose line. -/
def entryOnly : CamtEntry :=
  ⟨"", ["only"], ⟨2024, 1, 2⟩, ⟨false, 100, 2⟩, "EUR"⟩

/-- Sample entry with no name and no purpose lines. -/
def entryNone : CamtEntry :=
  ⟨"", [], ⟨2024, 1, 2⟩, ⟨false, 100, 2⟩, "EUR"⟩

/-- Sample file-system mapping: one zip containing one statement file
with one EUR entry. -/
def fs0 : String → List ZipMember :=
  fun p => if p = "a.zip" then [("m.xml", [entryEUR])] else []

/-- The classifier loop returns the label of the first rule whose
pattern hits, and the default label when none does, for any rule list. -/
theorem guessFrom_first (rules : List (Pat × String)) (s : String) :
    (∀ i p a, rules.get? i = some (p, a) →
      (∀ j q b, j < i → rules.get? j = some (q, b) → patSearch q s = false) →
      patSearch p s = true → guessFrom rules s = a)
    ∧ ((∀ j q b, rules.get? j = some (q, b) → patSearch q s = false) →
      guessFrom rules s = defaultAccount) := by
  induction rules with
  | nil =>
    constructor
    · intro i p a h
      simp [List.get?] at h
    · intro _
      rfl
  | cons hd rest ih =>
    obtain ⟨p₀, a₀⟩ := hd
    constructor
    · intro i p a hget hbefore hhit
      cases i with
      | zero =>
        simp only [List.get?] at hget
        obtain ⟨rfl, rfl⟩ : p₀ = p ∧ a₀ = a := by
          injection hget with h
          injection h with h1 h2
          exact ⟨h1, h2⟩
        simp [guessFrom, hhit]
      | succ i =>
        have h0 : patSearch p₀ s = false := hbefore 0 p₀ a₀ (Nat.zero_lt_succ i) rfl
        simp only [List.get?] at hget
        have := ih.1 i p a hget
          (fun j q b hj hg => hbefore (j + 1) q b (Nat.succ_lt_succ hj) hg)
          hhit
        simpa [guessFrom, h0] using this
    · intro hall
      have h0 : patSearch p₀ s = false := hall 0 p₀ a₀ rfl
      have := ih.2 (fun j q b hg => hall (j + 1) q b hg)
      simpa [guessFrom, h0] using this

/-- Claim C1: for every subject string, the classifier guess_account
returns the label of the first entry of account_patterns, in rule-list
order, whose pattern search matches the subject, and returns the fixed
default label defaultAccount when no entry matches; classification is
total since guess_account is a function. -/
theorem c1_first_match_wins (s : String) :
    (∀ i p a, account_patterns.get? i = some (p, a) →
      (∀ j q b, j < i → account_patterns.get? j = some (q, b) → patSearch q s = false) →
      patSearch p s = true → guess_account s = a)
    ∧ ((∀ j q b, account_patterns.get? j = some (q, b) → patSearch q s = false) →
      guess_account s = defaultAccount) :=
  guessFrom_first account_patterns s

/-- Witness for C1: the subject matching only the third rule is labelled
by that rule, via the theorem applied at the concrete subject. -/
theorem c1_first_match_wins_witness : guess_account "Chorreise" = "Chorreise" :=
  (c1_first_match_wins "Chorreise").1 2 pat3 "Chorreise" (by decide)
    (by
      intro j q b hj hget
      match j, hj with
      | 0, _ =>
        simp only [account_patterns, List.get?] at hget
        obtain ⟨rfl, rfl⟩ : pat1 = q ∧ "Probenwochenende" = b := by
          injection hget with h
          injection h with h1 h2
          exact ⟨h1, h2⟩
        decide
      | 1, _ =>
        simp only [account_patterns, List.get?] at hget
        obtain ⟨rfl, rfl⟩ : pat2 = q ∧ "Probenwochenende" = b := by
          injection hget with h
          injection h with h1 h2
          exact ⟨h1, h2⟩
        decide)
    (by decide)

/-- Counterexample to claim C2 as stated: in the subject XPWE the token
PWE occurs only as the suffix of a longer alphanumeric word, yet the
classifier assigns the acronym category, because the second source rule
demands only a trailing word boundary. -/
theorem c2_counterexample :
    guess_account "XPWE" = "Probenwochenende"
    ∧ guess_account "XPWE" ≠ defaultAccount := by
  decide

/-- Claim C2 as amended: a subject in which PWE is followed by a word
character (embedded infix as in XPWEX, or starting a longer word as in
PWEX) is not assigned the acronym category; PWE as an isolated word
(any case) is assigned it; and, contrary to the original claim, PWE
embedded at the end of a longer word (XPWE) is also assigned it. -/
theorem c2_amended :
    guess_account "XPWEX" = defaultAccount
    ∧ guess_account "PWEX" = defaultAccount
    ∧ guess_account "PWE" = "Probenwochenende"
    ∧ guess_account "pwe" = "Probenwochenende"
    ∧ guess_account "XPWE" = "Probenwochenende" := by
  decide

/-- Claim C7 is right about the intent but the code differs: on a
subject matching no rule the classifier returns the double-encoded
string with U+00C3 U+00A4 in place of the umlaut, which is not the
label named by the claim. -/
theorem c7_mojibake_default :
    guess_account "" = "TagesgeschÃ¤ft"
    ∧ guess_account "" ≠ "Tagesgeschäft" := by
  decide

/-- Claim C3: building a Transaction from a statement entry fails with
the currency-mismatch error exactly when the currency code is not EUR;
with EUR it succeeds, producing the assembled record, so the currency
check is the only failure case of the builder. -/
theorem c3_currency_guard (e : CamtEntry) :
    (from_camt_transaction e = Except.error Err.currencyMismatch ↔ e.currency ≠ "EUR")
    ∧ (e.currency = "EUR" → from_camt_transaction e
        = Except.ok (mkTransaction e.date
            (String.intercalate "\n"
              ((if e.name = "" then [] else [e.name]) ++ e.purpose.take 1))
            e.amountValue)) := by
  by_cases hc : e.currency = "EUR" <;> simp [from_camt_transaction, hc]

/-- Witness for C3: the USD entry is rejected with the currency error
and the EUR entry is accepted, via the theorem at those entries. -/
theorem c3_currency_guard_witness :
    from_camt_transaction entryUSD = Except.error Err.currencyMismatch
    ∧ from_camt_transaction entryEUR
        = Except.ok (mkTransaction entryEUR.date "Acme\nfirst" entryEUR.amountValue) :=
  ⟨(c3_currency_guard entryUSD).1.mpr (by decide),
   by
    have h := (c3_currency_guard entryEUR).2 rfl
    simpa [entryEUR] using h⟩

/-- Claim C4: for every entry accepted by the builder, the subject is
the counterparty name (kept only when non-empty) followed by the first
purpose line (kept only when the purpose list is non-empty), joined by
one newline, with later purpose lines ignored and the empty string when
both parts are absent; together with the three concrete shapes named by
the claim. -/
theorem c4_subject_assembly (e : CamtEntry) (h : e.currency = "EUR") :
    ((from_camt_transaction e).map Transaction.subject
      = Except.ok (String.intercalate "\n"
          ((if e.name = "" then [] else [e.name]) ++ e.purpose.take 1)))
    ∧ (from_camt_transaction entryEUR).map Transaction.subject = Except.ok "Acme\nfirst"
    ∧ (from_camt_transaction entryOnly).map Transaction.subject = Except.ok "only"
    ∧ (from_camt_transaction entryNone).map Transaction.subject = Except.ok "" := by
  refine ⟨?_, by rfl, by rfl, by rfl⟩
  simp [from_camt_transaction, h, mkTransaction, Except.map]

/-- Witness for C4: the theorem applied at the named-entry example. -/
theorem c4_subject_assembly_witness :
    (from_camt_transaction entryEUR).map Transaction.subject = Except.ok "Acme\nfirst" :=
  (c4_subject_assembly entryEUR rfl).2.1

/-- Claim C5: the exporter output is the seven-name header row followed
by one row per transaction, the header alone for zero transactions; in
every data row the fourth, fifth and sixth fields are empty, the
classification label sits only in the seventh field, the date is
rendered day-dot-month-dot-year, and the subject appears verbatim,
embedded newlines included. -/
theorem c5_export_shape (ts : List Transaction) :
    to_csv [] = [fieldnames]
    ∧ fieldnames.length = 7
    ∧ (to_csv ts).length = ts.length + 1
    ∧ (to_csv ts).get? 0 = some fieldnames
    ∧ (∀ i : Nat, (to_csv ts).get? (i + 1) = (ts.get? i).map csvRow)
    ∧ (∀ t : Transaction, (csvRow t).length = 7
        ∧ (csvRow t).get? 0 = some (formatDate t.date)
        ∧ (csvRow t).get? 1 = some t.subject
        ∧ (csvRow t).get? 3 = some ""
        ∧ (csvRow t).get? 4 = some ""
        ∧ (csvRow t).get? 5 = some ""
        ∧ (csvRow t).get? 6 = some t.account)
    ∧ formatDate ⟨2024, 3, 5⟩ = "05.03.2024" := by
  refine ⟨rfl, rfl, by simp [to_csv], rfl, ?_, ?_, by decide⟩
  · intro i
    simp [to_csv, List.get?]
  · intro t
    exact ⟨rfl, rfl, rfl, rfl, rfl, rfl, rfl⟩

/-- Counterexample to claim C6 as stated: the exporter renders the
amount 1234.5 under the de_DE numeric locale, which applies thousands
grouping, so the output is 1.234,5 rather than the 1234,5 the claim
names. -/
theorem c6_counterexample :
    formatAmount ⟨false, 12345, 1⟩ = "1.234,5"
    ∧ formatAmount ⟨false, 12345, 1⟩ ≠ "1234,5" := by
  decide

/-- Claim C6 as amended: the exporter renders amounts by the fixed
de_DE convention the module installs at import time (independent of the
ambient locale): decimal comma, and dots grouping the integer digits in
threes, so 1234.5 renders as 1.234,5, -0.01 renders as -0,01, and every
amount with fractional digits contains the decimal comma. -/
theorem c6_amended :
    formatAmount ⟨false, 12345, 1⟩ = "1.234,5"
    ∧ formatAmount ⟨true, 1, 2⟩ = "-0,01"
    ∧ (∀ d : Decimal, 0 < d.scale → ',' ∈ (formatAmount d).data) := by
  refine ⟨by decide, by decide, ?_⟩
  intro d h
  have h0 : ¬d.scale = 0 := Nat.pos_iff_ne_zero.mp h
  simp [formatAmount, h0, List.mem_append]

/-- Witness for C6 as amended: the universal comma conjunct applied at
the concrete amount -0.01. -/
theorem c6_amended_witness :
    0 < (⟨true, 1, 2⟩ : Decimal).scale ∧ ',' ∈ (formatAmount ⟨true, 1, 2⟩).data :=
  ⟨by decide, c6_amended.2.2 ⟨true, 1, 2⟩ (by decide)⟩

/-- Counterexample to claim C8 as stated: with a valid zip first and an
unsupported input second, the run does fail with the unsupported-input
error, but the data row built from the first input is already among the
written rows, because the writer consumes the lazy stream as it is
produced. -/
theorem c8_counterexample :
    (to_csv_run (from_any_files fs0 ["a.zip", "b.xml"])).2
      = some (Err.unsupportedInput "Don\x27t know how to handle b.xml")
    ∧ csvRow (mkTransaction ⟨2024, 1, 2⟩ "Acme\nfirst" ⟨false, 100, 2⟩)
        ∈ (to_csv_run (from_any_files fs0 ["a.zip", "b.xml"])).1 := by
  constructor
  · rfl
  · decide

/-- Claim C8 as amended: when the second input is unsupported and the
first zip input streams without error, the run terminates with the
unsupported-input error naming the second input and consumes no later
input, but the written output already holds the header row and the rows
of every transaction of the first input. -/
theorem c8_amended (fs : String → List ZipMember) (z b : String) (rest : List String)
    (hz : is_zipfile z = true) (hb : is_zipfile b = false)
    (hok : (zipfileRun (fs z)).2.2 = none) :
    to_csv_run (from_any_files fs (z :: b :: rest))
      = (fieldnames :: (zipfileRun (fs z)).1.map csvRow,
         some (Err.unsupportedInput ("Don\x27t know how to handle " ++ b))) := by
  simp [from_any_files, hz, hb, hok, to_csv_run, to_csv]

/-- Witness for C8 as amended: the theorem at the concrete mixed input
list with one EUR transaction in the zip. -/
theorem c8_amended_witness :
    to_csv_run (from_any_files fs0 ["a.zip", "b.xml"])
      = (fieldnames :: (zipfileRun (fs0 "a.zip")).1.map csvRow,
         some (Err.unsupportedInput ("Don\x27t know how to handle " ++ "b.xml"))) :=
  c8_amended fs0 "a.zip" "b.xml" [] (by decide) (by decide) (by decide)

/-- The member loop leaves no extracted file behind exactly when it
finishes without error; an error keeps at least the failing member's
file on disk. -/
theorem zipRunAux_leftovers (ms : List ZipMember) :
    ((zipRunAux ms).2.2 = none → (zipRunAux ms).2.1 = [])
    ∧ ((zipRunAux ms).2.2 ≠ none → (zipRunAux ms).2.1 ≠ []) := by
  induction ms with
  | nil => simp [zipRunAux]
  | cons m rest ih =>
    obtain ⟨name, es⟩ := m
    cases h : (buildStream es).2 with
    | some e => simp [zipRunAux, h]
    | none => simpa [zipRunAux, h] using ih

/-- Counterexample to claim C9 as stated: a zip whose single member
fails during consumption (currency mismatch on its only entry) ends the
run with that error while the member's extracted temporary file is
still on disk, because the source unlinks only after a fully successful
consumption, with no handler on the error path. -/
theorem c9_counterexample :
    zipfileRun [("m.xml", [entryUSD])]
      = ([], ["m.xml"], some Err.currencyMismatch) := by
  rfl

/-- Claim C9 as amended: each member's extracted file is released
immediately after that member is fully consumed without error, so an
error-free run leaves no temporary file; but on every error path the
file of the member being processed (and of every later member) is left
behind. -/
theorem c9_amended (ms : List ZipMember) :
    ((zipfileRun ms).2.2 = none → (zipfileRun ms).2.1 = [])
    ∧ ((zipfileRun ms).2.2 ≠ none → (zipfileRun ms).2.1 ≠ []) :=
  zipRunAux_leftovers (sortMembers ms)

/-- Witness for C9 as amended: the theorem at a one-member zip that
succeeds (no leftover file) and at a one-member zip that fails on a USD
entry (its file remains). -/
theorem c9_amended_witness :
    (zipfileRun [("m.xml", [entryEUR])]).2.1 = []
    ∧ (zipfileRun [("u.xml", [entryUSD])]).2.1 ≠ [] :=
  ⟨(c9_amended [("m.xml", [entryEUR])]).1 (by rfl),
   (c9_amended [("u.xml", [entryUSD])]).2 (by decide)⟩

/-- Claim C10: an input path reaches the container path of the pipeline
exactly when it ends in the lowercase or the uppercase zip suffix; any
other path, a mixed-case zip name or a direct statement file included,
makes the stream fail at once with the unsupported-input error naming
that path, yielding nothing. -/
theorem c10_container_suffix (fs : String → List ZipMember) (a : String)
    (rest : List String) (h : is_zipfile a = false) :
    from_any_files fs (a :: rest)
      = ([], some (Err.unsupportedInput ("Don\x27t know how to handle " ++ a)))
    ∧ (∀ s : String, is_zipfile s = true
        ↔ (endsWithChars s ".zip" = true ∨ endsWithChars s ".ZIP" = true))
    ∧ is_zipfile "a.zip" = true ∧ is_zipfile "A.ZIP" = true
    ∧ is_zipfile "a.Zip" = false ∧ is_zipfile "statement.xml" = false := by
  refine ⟨?_, ?_, by decide, by decide, by decide, by decide⟩
  · simp [from_any_files, h]
  · intro s
    simp [is_zipfile, Bool.or_eq_true]

/-- Witness for C10: the theorem at the mixed-case zip name. -/
theorem c10_container_suffix_witness :
    from_any_files fs0 ["a.Zip"]
      = ([], some (Err.unsupportedInput ("Don\x27t know how to handle " ++ "a.Zip"))) :=
  (c10_container_suffix fs0 "a.Zip" [] (by decide)).1
